import Mathlib

/-!
Shallow embedding of `src/src/components/ally/AllyWrapper.vue`.

The component is a form-field wrapper. Its script sets up:
- props (`id`, `label`, `modelValue`, `required`, `ariaDescribedby`,
  `errorMessage`, `reserveErrorSpace`, `autocomplete`);
- an injected optional aggregator `allyForm` exposing
  `updateErrorState(fieldId, message)` and `clearErrorState(fieldId)`;
- a watcher on `props.errorMessage` (with `immediate: true`) that reports
  `updateErrorState(props.id, newMessage || '')` when an aggregator is present;
- a watcher on `props.id` that calls `clearErrorState(oldId)` when
  `allyForm && oldId && props.errorMessage` holds, and then
  `updateErrorState(newId, props.errorMessage || '')` when `allyForm` holds;
- an `onUnmounted` hook calling `clearErrorState(props.id)` when an
  aggregator is present;
- a writable computed `value` whose getter returns `props.modelValue` and
  whose setter emits `update:modelValue` with the new value;
- computed ids `helpTextId`, `errorTextId`, `labelId`, the flag `isInvalid`,
  and the computed `describedBy`.

The embedding models the watcher handlers as pure functions from the watched
values to the list of aggregator calls they perform, Vue reactivity as a step
function on the mutable prop state (`id`, `errorMessage`) that fires a watcher
exactly when the watched value actually changes, and a whole component
lifetime (`run`) as mount (the immediate watcher), a list of events, and
unmount. JavaScript truthiness of strings is empty-string falsiness.
-/

namespace AllyWrapper

/-- The `modelValue` prop has TypeScript type `string | number`. -/
inductive Value where
  | str (s : String)
  | num (n : Int)
deriving DecidableEq

/-- The props of `AllyWrapper.vue`, with defaults already applied
(`withDefaults` gives `errorMessage` the default `''`, `required := false`,
`reserveErrorSpace := true`, and leaves `ariaDescribedby` and `autocomplete`
`undefined`). -/
structure Props where
  id : String
  label : String
  modelValue : Value
  required : Bool
  ariaDescribedby : Option String
  errorMessage : String
  reserveErrorSpace : Bool
  autocomplete : Option String
deriving DecidableEq

/-- A call made into the injected `allyForm` aggregator. -/
inductive AggCall where
  | updateErrorState (fieldId message : String)
  | clearErrorState (fieldId : String)
deriving DecidableEq

/-- An event emitted by the component (`defineEmits(['update:modelValue', 'blur'])`;
only `update:modelValue` is emitted by the script itself, via the `value` setter). -/
inductive Emit where
  | updateModelValue (v : Value)
deriving DecidableEq

/-- The mutable prop state the watchers react to: the current `id` and the
current `errorMessage`. -/
structure CompState where
  id : String
  errorMessage : String
deriving DecidableEq

/-- JavaScript `m || ''` on a string `m`: the empty string is falsy. -/
def jsOrEmpty (m : String) : String := if m = "" then "" else m

/-- Handler of `watch(() => props.errorMessage, ...)` (lines 30-34):
`if (allyForm) allyForm.updateErrorState(props.id, newMessage || '')`. -/
def errorMessageWatcher (allyForm : Bool) (id newMessage : String) : List AggCall :=
  if allyForm then [AggCall.updateErrorState id (jsOrEmpty newMessage)] else []

/-- Handler of `watch(() => props.id, ...)` (lines 37-46):
`if (allyForm && oldId && props.errorMessage) allyForm.clearErrorState(oldId)`,
then `if (allyForm) allyForm.updateErrorState(newId, props.errorMessage || '')`. -/
def idWatcherCalls (allyForm : Bool) (newId oldId errorMessage : String) : List AggCall :=
  (if allyForm ∧ oldId ≠ "" ∧ errorMessage ≠ "" then [AggCall.clearErrorState oldId] else []) ++
    (if allyForm then [AggCall.updateErrorState newId (jsOrEmpty errorMessage)] else [])

/-- The calls made at mount: the `errorMessage` watcher has `immediate: true`,
so it fires once with the initial `props.errorMessage`; the `id` watcher is not
immediate and does not fire at mount. -/
def mountCalls (allyForm : Bool) (p : Props) : List AggCall :=
  errorMessageWatcher allyForm p.id p.errorMessage

/-- Handler of `onUnmounted` (lines 49-53):
`if (allyForm) allyForm.clearErrorState(props.id)`. -/
def unmountCalls (allyForm : Bool) (s : CompState) : List AggCall :=
  if allyForm then [AggCall.clearErrorState s.id] else []

/-- An externally triggered event during the component's lifetime: the parent
sets the `errorMessage` prop, sets the `id` prop, or the control slot writes
the `value` computed (user input). -/
inductive Event where
  | setErrorMessage (m : String)
  | setId (i : String)
  | userInput (v : Value)
deriving DecidableEq

/-- Result of processing events: the resulting prop state, the aggregator
calls made, and the events emitted, each in order. -/
structure StepOut where
  state : CompState
  aggCalls : List AggCall
  emits : List Emit
deriving DecidableEq

/-- One externally triggered change. Vue fires a watcher only when the watched
value actually changes, so setting a prop to its current value does nothing.
Writing the `value` computed runs its setter, which only emits
`update:modelValue` with the new value (lines 56-61). -/
def step (allyForm : Bool) (s : CompState) : Event → StepOut
  | Event.setErrorMessage m =>
    if m = s.errorMessage then ⟨s, [], []⟩
    else ⟨{ s with errorMessage := m }, errorMessageWatcher allyForm s.id m, []⟩
  | Event.setId i =>
    if i = s.id then ⟨s, [], []⟩
    else ⟨{ s with id := i }, idWatcherCalls allyForm i s.id s.errorMessage, []⟩
  | Event.userInput v => ⟨s, [], [Emit.updateModelValue v]⟩

/-- Process a list of events in order, concatenating calls and emits. -/
def processEvents (allyForm : Bool) (s : CompState) : List Event → StepOut
  | [] => ⟨s, [], []⟩
  | e :: es =>
    let o := step allyForm s e
    let r := processEvents allyForm o.state es
    ⟨r.state, o.aggCalls ++ r.aggCalls, o.emits ++ r.emits⟩

/-- `changesFrom prev ms` holds when each message in `ms` differs from the one
before it (with `prev` before the first): exactly the runs in which every
`setErrorMessage` in `ms` is a genuine change that fires the watcher. -/
def changesFrom (prev : String) : List String → Bool
  | [] => true
  | m :: ms => !(prev == m) && changesFrom m ms

/-- The prop state at mount. -/
def initState (p : Props) : CompState := ⟨p.id, p.errorMessage⟩

/-- A whole component lifetime: mount (the immediate watcher fires), the given
events, then unmount. -/
def run (allyForm : Bool) (p : Props) (es : List Event) : StepOut :=
  let r := processEvents allyForm (initState p) es
  ⟨r.state, mountCalls allyForm p ++ r.aggCalls ++ unmountCalls allyForm r.state, r.emits⟩

/-- The prop state right before unmount, with an aggregator present. -/
def finalStateOf (p : Props) (es : List Event) : CompState :=
  (processEvents true (initState p) es).state

/-- All aggregator calls made before the unmount hook runs. -/
def preDestroyCalls (p : Props) (es : List Event) : List AggCall :=
  mountCalls true p ++ (processEvents true (initState p) es).aggCalls

/-- Getter of the writable computed `value`: `() => props.modelValue`. -/
def value_get (p : Props) : Value := p.modelValue

/-- `helpTextId = computed(() => props.id + "-help")`. -/
def helpTextId (id : String) : String := id ++ "-help"

/-- `errorTextId = computed(() => props.id + "-error")`. -/
def errorTextId (id : String) : String := id ++ "-error"

/-- `labelId = computed(() => props.id + "-label")`. -/
def labelId (id : String) : String := id ++ "-label"

/-- `isInvalid = computed(() => !!props.errorMessage)`. -/
def isInvalid (errorMessage : String) : Bool :=
  if errorMessage = "" then false else true

/-- JavaScript `Array.prototype.filter(Boolean)` on an array of
string-or-undefined: drops `undefined` and empty strings (both falsy). -/
def jsFilterBoolean (l : List (Option String)) : List String :=
  l.filterMap (fun o =>
    match o with
    | none => none
    | some s => if s = "" then none else some s)

/-- JavaScript `Array.from(new Set(ids))`: order-preserving deduplication
keeping the first occurrence of each element. `seen` accumulates the elements
already kept. -/
def dedupFirst (seen : List String) : List String → List String
  | [] => []
  | a :: l => if a ∈ seen then dedupFirst seen l else a :: dedupFirst (a :: seen) l

/-- The candidate array `ids` of the `describedBy` computed (lines 75-79):
`[props.ariaDescribedby, slots.helptext ? helpTextId : undefined,
isInvalid ? errorTextId : undefined]`. -/
def describedByIds (id : String) (ariaDescribedby : Option String) (hasHelptext : Bool)
    (errorMessage : String) : List (Option String) :=
  [ariaDescribedby,
    if hasHelptext then some (helpTextId id) else none,
    if isInvalid errorMessage then some (errorTextId id) else none]

/-- `uniqueIds` of the `describedBy` computed (line 81):
`Array.from(new Set(ids.filter(Boolean))).filter(id => id !== labelId)`. -/
def describedByList (id : String) (ariaDescribedby : Option String) (hasHelptext : Bool)
    (errorMessage : String) : List String :=
  (dedupFirst [] (jsFilterBoolean (describedByIds id ariaDescribedby hasHelptext errorMessage))).filter
    (fun s => decide (s ≠ labelId id))

/-- The `describedBy` computed (lines 74-83):
`uniqueIds.length ? uniqueIds.join(' ') : undefined`. -/
def describedBy (id : String) (ariaDescribedby : Option String) (hasHelptext : Bool)
    (errorMessage : String) : Option String :=
  let uniqueIds := describedByList id ariaDescribedby hasHelptext errorMessage
  if uniqueIds = [] then none else some (String.intercalate " " uniqueIds)

/-- The token list of `describedBy` as the spec words it: the list
`[ariaDescribedbyExtra, helpTextId if help content present, errorTextId if
invalid]`, deduplicated preserving order, excluding `labelId`. Unlike the
code's `filter(Boolean)`, the spec's words do not drop an empty-string
`ariaDescribedbyExtra`. -/
def specDescribedByList (id : String) (ariaDescribedby : Option String) (hasHelptext : Bool)
    (errorMessage : String) : List String :=
  (dedupFirst []
      ((describedByIds id ariaDescribedby hasHelptext errorMessage).filterMap (fun o => o))).filter
    (fun s => decide (s ≠ labelId id))

/-- The spec's `describedBy`: the space-separated join of `specDescribedByList`. -/
def specDescribedByJoin (id : String) (ariaDescribedby : Option String) (hasHelptext : Bool)
    (errorMessage : String) : String :=
  String.intercalate " " (specDescribedByList id ariaDescribedby hasHelptext errorMessage)

/-- The read-only context passed to the `control` slot (template lines 95-103). -/
structure SlotContext where
  id : String
  isInvalid : Bool
  describedBy : Option String
  labelId : String
  required : Bool
  autocomplete : Option String
deriving DecidableEq

/-- The rendered output of the template (lines 87-120), as the attribute and
visibility decisions the template makes from the props and slots. -/
structure Rendered where
  hasErrorClass : Bool
  labelShown : Bool
  labelIdAttr : String
  labelFor : String
  requiredMarker : Bool
  control : SlotContext
  helpShown : Bool
  helpIdAttr : String
  errorRegionShown : Bool
  errorIdAttr : String
  errorReservedHidden : Bool
  errorText : String
deriving DecidableEq

/-- The template as a function of the static props, the presence of the
`helptext` slot, and the current reactive state. -/
def renderOf (p : Props) (hasHelptext : Bool) (s : CompState) : Rendered :=
  { hasErrorClass := isInvalid s.errorMessage
    labelShown := decide (p.label ≠ "")
    labelIdAttr := labelId s.id
    labelFor := s.id
    requiredMarker := p.required
    control :=
      { id := s.id
        isInvalid := isInvalid s.errorMessage
        describedBy := describedBy s.id p.ariaDescribedby hasHelptext s.errorMessage
        labelId := labelId s.id
        required := p.required
        autocomplete := p.autocomplete }
    helpShown := hasHelptext
    helpIdAttr := helpTextId s.id
    errorRegionShown := isInvalid s.errorMessage || p.reserveErrorSpace
    errorIdAttr := errorTextId s.id
    errorReservedHidden := p.reserveErrorSpace && !(isInvalid s.errorMessage)
    errorText := s.errorMessage }

/-- A concrete props value used by witnesses: id `"f"`, an error already
present at mount. -/
def pEx : Props := ⟨"f", "Name", Value.str "v", false, none, "req", true, none⟩

end AllyWrapper

namespace AllyWrapper

/-- `m || ''` is the identity on a string `m`. -/
theorem jsOrEmpty_eq (m : String) : jsOrEmpty m = m := by
  by_cases h : m = "" <;> simp [jsOrEmpty, h]

/-- C2: on mount with an aggregator present, the wrapper immediately makes
exactly one aggregator call, `updateErrorState` with its current `id` and its
current `errorMessage` (even when empty): in every run the trace starts with
that single call, before any event or unmount call. -/
theorem c2_initial_sync (p : Props) (es : List Event) :
    (run true p es).aggCalls =
      AggCall.updateErrorState p.id p.errorMessage ::
        ((processEvents true (initState p) es).aggCalls ++
          unmountCalls true (processEvents true (initState p) es).state) := by
  simp [run, mountCalls, errorMessageWatcher, jsOrEmpty_eq]

/-- C3: on unmount with an aggregator present and a non-empty `errorMessage`
under the current id, the whole trace is the pre-destruction calls followed by
exactly one `clearErrorState` of the current id; nothing — in particular no
`updateErrorState` — comes after it. -/
theorem c3_unmount_clear (p : Props) (es : List Event)
    (h : (finalStateOf p es).errorMessage ≠ "") :
    (run true p es).aggCalls =
      preDestroyCalls p es ++ [AggCall.clearErrorState (finalStateOf p es).id] := by
  simp [run, preDestroyCalls, unmountCalls, finalStateOf, mountCalls, List.append_assoc]

/-- Witness for C3 at a concrete run: props `pEx` (error `"req"` under id
`"f"`), no events. -/
theorem c3_unmount_clear_witness :
    (finalStateOf pEx []).errorMessage ≠ "" ∧
      (run true pEx []).aggCalls =
        preDestroyCalls pEx [] ++ [AggCall.clearErrorState (finalStateOf pEx []).id] :=
  ⟨by decide, c3_unmount_clear pEx [] (by decide)⟩

/-- C5: an `id` change while `errorMessage` is empty makes exactly one
aggregator call, `updateErrorState(newId, "")`, and no `clearErrorState`. -/
theorem c5_id_change_without_error (s : CompState) (newId : String)
    (herr : s.errorMessage = "") (hch : newId ≠ s.id) :
    (step true s (Event.setId newId)).aggCalls = [AggCall.updateErrorState newId ""] := by
  simp [step, hch, idWatcherCalls, herr, jsOrEmpty]

/-- Witness for C5: id change `"a"` to `"b"` with no error. -/
theorem c5_id_change_without_error_witness :
    ((CompState.mk "a" "").errorMessage = "" ∧ "b" ≠ (CompState.mk "a" "").id) ∧
      (step true ⟨"a", ""⟩ (Event.setId "b")).aggCalls = [AggCall.updateErrorState "b" ""] :=
  ⟨⟨rfl, by decide⟩, c5_id_change_without_error ⟨"a", ""⟩ "b" rfl (by decide)⟩

/-- C1 fails as stated: when the `id` changes from the empty string to `"b"`
while `errorMessage = "required"` and an aggregator is present, the code's
`oldId &&` truthiness guard skips `clearErrorState`, so only one call is made
instead of the claimed two. -/
theorem c1_counterexample :
    (step true ⟨"", "required"⟩ (Event.setId "b")).aggCalls
        = [AggCall.updateErrorState "b" "required"] ∧
      (step true ⟨"", "required"⟩ (Event.setId "b")).aggCalls
        ≠ [AggCall.clearErrorState "", AggCall.updateErrorState "b" "required"] := by
  decide

/-- C1 amended: for every `id` change from a NON-EMPTY `oldId` to `newId`
while `errorMessage` is non-empty and an aggregator is present, exactly two
calls are made, in order `clearErrorState(oldId)` then
`updateErrorState(newId, errorMessage)`. -/
theorem c1_id_change_with_error (s : CompState) (newId : String)
    (hold : s.id ≠ "") (herr : s.errorMessage ≠ "") (hch : newId ≠ s.id) :
    (step true s (Event.setId newId)).aggCalls =
      [AggCall.clearErrorState s.id, AggCall.updateErrorState newId s.errorMessage] := by
  simp [step, hch, idWatcherCalls, hold, herr, jsOrEmpty_eq]

/-- Witness for amended C1: id change `"a"` to `"b"` with error `"required"`. -/
theorem c1_id_change_with_error_witness :
    ((CompState.mk "a" "required").id ≠ "" ∧
        (CompState.mk "a" "required").errorMessage ≠ "" ∧
        "b" ≠ (CompState.mk "a" "required").id) ∧
      (step true ⟨"a", "required"⟩ (Event.setId "b")).aggCalls =
        [AggCall.clearErrorState "a", AggCall.updateErrorState "b" "required"] :=
  ⟨⟨by decide, by decide, by decide⟩,
    c1_id_change_with_error ⟨"a", "required"⟩ "b" (by decide) (by decide) (by decide)⟩

/-- C9: the wrapper never mutates the supplied value: the `value` getter
returns exactly `props.modelValue`, and writing the value leaves the
component's reactive state (and hence all props) unchanged, makes no
aggregator call, and emits exactly one `update:modelValue` event carrying the
new value. -/
theorem c9_controlled_value (p : Props) (allyForm : Bool) (s : CompState) (v : Value) :
    value_get p = p.modelValue ∧
      step allyForm s (Event.userInput v) = ⟨s, [], [Emit.updateModelValue v]⟩ :=
  ⟨rfl, rfl⟩

/-- C10: when the filtered token list is empty, the computed `describedBy` is
`undefined` (here `none`), not the empty string. -/
theorem c10_describedBy_empty (id : String) (aria : Option String) (hasHelp : Bool)
    (err : String) (h : describedByList id aria hasHelp err = []) :
    describedBy id aria hasHelp err = none := by
  simp [describedBy, h]

/-- Witness for C10 at the all-empty input. -/
theorem c10_describedBy_empty_witness :
    describedByList "f" none false "" = [] ∧ describedBy "f" none false "" = none :=
  ⟨by decide, c10_describedBy_empty "f" none false "" (by decide)⟩

end AllyWrapper
namespace AllyWrapper

/-- C4: after the initial synchronization, a run of `n` genuine `errorMessage`
changes with the id unchanged produces exactly `n` `updateErrorState` calls,
in order, each carrying the new message under the field's current id. -/
theorem c4_message_sequence (s : CompState) (msgs : List String)
    (h : changesFrom s.errorMessage msgs = true) :
    (processEvents true s (msgs.map Event.setErrorMessage)).aggCalls =
      msgs.map (fun m => AggCall.updateErrorState s.id m) := by
  induction msgs generalizing s with
  | nil => simp [processEvents]
  | cons m ms ih =>
    rw [changesFrom, Bool.and_eq_true] at h
    have h1 : s.errorMessage ≠ m := by
      intro hh
      rw [hh] at h
      simp at h
    have h2 : changesFrom m ms = true := h.2
    have hne : ¬ (m = s.errorMessage) := fun hh => h1 hh.symm
    simp only [List.map_cons, processEvents, step, if_neg hne]
    rw [ih { s with errorMessage := m } h2]
    simp [errorMessageWatcher, jsOrEmpty_eq]

/-- Witness for C4: two changes `"" → "a" → "b"` under id `"f"`. -/
theorem c4_message_sequence_witness :
    changesFrom (CompState.mk "f" "").errorMessage ["a", "b"] = true ∧
      (processEvents true ⟨"f", ""⟩ (["a", "b"].map Event.setErrorMessage)).aggCalls =
        ["a", "b"].map (fun m => AggCall.updateErrorState "f" m) :=
  ⟨by decide, c4_message_sequence ⟨"f", ""⟩ ["a", "b"] (by decide)⟩

/-- Every element `dedupFirst` keeps was not in `seen`. -/
theorem mem_dedupFirst_not_seen (l : List String) :
    ∀ (seen : List String) (x : String), x ∈ dedupFirst seen l → x ∉ seen := by
  induction l with
  | nil =>
    intro seen x hx
    simp [dedupFirst] at hx
  | cons a l ih =>
    intro seen x hx
    by_cases ha : a ∈ seen
    · rw [dedupFirst, if_pos ha] at hx
      exact ih seen x hx
    · rw [dedupFirst, if_neg ha] at hx
      rcases List.mem_cons.mp hx with rfl | hx'
      · exact ha
      · intro hs
        exact ih (a :: seen) x hx' (List.mem_cons_of_mem a hs)

/-- `dedupFirst` output has no duplicates. -/
theorem nodup_dedupFirst (l : List String) :
    ∀ seen : List String, (dedupFirst seen l).Nodup := by
  induction l with
  | nil =>
    intro seen
    simp [dedupFirst]
  | cons a l ih =>
    intro seen
    by_cases ha : a ∈ seen
    · rw [dedupFirst, if_pos ha]
      exact ih seen
    · rw [dedupFirst, if_neg ha]
      refine List.nodup_cons.mpr ⟨?_, ih (a :: seen)⟩
      intro hmem
      exact mem_dedupFirst_not_seen l (a :: seen) a hmem (List.mem_cons_self a seen)

/-- C6: for every input, the token list joined into `describedBy` never
contains `labelId` and never contains duplicates; the third conjunct records
that `describedBy` is exactly the space-join of that token list (or absent
when the list is empty), so the tokens of the attribute are the list's
elements. In particular an `ariaDescribedby` equal to `labelId` is excluded. -/
theorem c6_describedBy_invariant (id : String) (aria : Option String) (hasHelp : Bool)
    (err : String) :
    labelId id ∉ describedByList id aria hasHelp err ∧
      (describedByList id aria hasHelp err).Nodup ∧
      describedBy id aria hasHelp err =
        (if describedByList id aria hasHelp err = [] then none
          else some (String.intercalate " " (describedByList id aria hasHelp err))) := by
  refine ⟨?_, ?_, rfl⟩
  · intro hmem
    rw [describedByList] at hmem
    rcases List.mem_filter.mp hmem with ⟨-, hdec⟩
    simp at hdec
  · exact List.Nodup.filter _ (nodup_dedupFirst _ _)

/-- `helpTextId` is never the empty string. -/
theorem helpTextId_ne_empty (id : String) : helpTextId id ≠ "" := by
  intro h
  have hd := congrArg String.data h
  rw [helpTextId, String.data_append] at hd
  simp at hd

/-- `errorTextId` is never the empty string. -/
theorem errorTextId_ne_empty (id : String) : errorTextId id ≠ "" := by
  intro h
  have hd := congrArg String.data h
  rw [errorTextId, String.data_append] at hd
  simp at hd

/-- On a list with no `some ""` element, the code's `filter(Boolean)` agrees
with the spec's plain removal of absent entries. -/
theorem jsFilterBoolean_eq_filterMap :
    ∀ l : List (Option String), (∀ o ∈ l, o ≠ some "") →
      jsFilterBoolean l = l.filterMap (fun o => o) := by
  intro l
  induction l with
  | nil => intro _; rfl
  | cons o l ih =>
    intro h
    have h0 : o ≠ some "" := h o (List.mem_cons_self o l)
    have hl : ∀ x ∈ l, x ≠ some "" := fun x hx => h x (List.mem_cons_of_mem o hx)
    cases o with
    | none => simpa [jsFilterBoolean, List.filterMap_cons] using ih hl
    | some s =>
      have hs : s ≠ "" := by
        intro hh
        exact h0 (by rw [hh])
      simpa [jsFilterBoolean, List.filterMap_cons, hs] using ih hl

/-- No candidate of `describedByIds` is `some ""` once `ariaDescribedby` is
not the empty string. -/
theorem describedByIds_no_empty (id : String) (aria : Option String) (hasHelp : Bool)
    (err : String) (haria : aria ≠ some "") :
    ∀ o ∈ describedByIds id aria hasHelp err, o ≠ some "" := by
  intro o ho
  rw [describedByIds] at ho
  rcases List.mem_cons.mp ho with rfl | ho
  · exact haria
  rcases List.mem_cons.mp ho with rfl | ho
  · split
    · intro hh
      exact helpTextId_ne_empty id (Option.some.inj hh)
    · simp
  rcases List.mem_cons.mp ho with rfl | ho
  · split
    · intro hh
      exact errorTextId_ne_empty id (Option.some.inj hh)
    · simp
  · simp at ho

/-- C7 amended: when `ariaDescribedby` is not the degenerate empty string and
at least one token survives the filtering, the computed `describedBy` is
exactly the spec's deduplicated, order-preserving, space-separated join with
`labelId` excluded. -/
theorem c7_describedBy_join (id : String) (aria : Option String) (hasHelp : Bool) (err : String)
    (haria : aria ≠ some "") (hne : specDescribedByList id aria hasHelp err ≠ []) :
    describedBy id aria hasHelp err = some (specDescribedByJoin id aria hasHelp err) := by
  have hlist : describedByList id aria hasHelp err = specDescribedByList id aria hasHelp err := by
    rw [describedByList, specDescribedByList,
      jsFilterBoolean_eq_filterMap _ (describedByIds_no_empty id aria hasHelp err haria)]
  rw [describedBy, specDescribedByJoin]
  simp only [hlist]
  rw [if_neg hne]

/-- C7 fails as stated: at the all-empty input the spec's join is the empty
string while the code's `describedBy` is absent (`undefined`), not `some ""`. -/
theorem c7_counterexample :
    describedBy "f" none false "" = none ∧
      specDescribedByJoin "f" none false "" = "" ∧
      describedBy "f" none false "" ≠ some (specDescribedByJoin "f" none false "") := by
  decide

/-- Witness for amended C7 at the spec's own example: extra `"ext1"`, help
content present, invalid with id `"f"` gives `"ext1 f-help f-error"`. -/
theorem c7_describedBy_join_witness :
    ((some "ext1" : Option String) ≠ some "" ∧
        specDescribedByList "f" (some "ext1") true "req" ≠ []) ∧
      describedBy "f" (some "ext1") true "req" = some "ext1 f-help f-error" :=
  ⟨⟨by decide, by decide⟩,
    (c7_describedBy_join "f" (some "ext1") true "req" (by decide) (by decide)).trans (by decide)⟩

end AllyWrapper
namespace AllyWrapper

/-- Without an aggregator a step makes no aggregator call. -/
theorem step_no_agg (s : CompState) (e : Event) : (step false s e).aggCalls = [] := by
  cases e with
  | setErrorMessage m =>
    by_cases hm : m = s.errorMessage <;> simp [step, hm, errorMessageWatcher]
  | setId i =>
    by_cases hi : i = s.id <;> simp [step, hi, idWatcherCalls]
  | userInput v => rfl

/-- The state transition and the emitted events of a step do not depend on
whether an aggregator is present. -/
theorem step_indep (s : CompState) (e : Event) :
    (step false s e).state = (step true s e).state ∧
      (step false s e).emits = (step true s e).emits := by
  cases e with
  | setErrorMessage m => by_cases hm : m = s.errorMessage <;> simp [step, hm]
  | setId i => by_cases hi : i = s.id <;> simp [step, hi]
  | userInput v => exact ⟨rfl, rfl⟩

/-- Without an aggregator, processing any events makes no aggregator call. -/
theorem processEvents_no_agg (es : List Event) :
    ∀ s, (processEvents false s es).aggCalls = [] := by
  induction es with
  | nil => intro s; rfl
  | cons e es ih =>
    intro s
    simp [processEvents, step_no_agg, ih]

/-- The state and emits of event processing do not depend on whether an
aggregator is present. -/
theorem processEvents_indep (es : List Event) :
    ∀ s, (processEvents false s es).state = (processEvents true s es).state ∧
      (processEvents false s es).emits = (processEvents true s es).emits := by
  induction es with
  | nil => intro s; exact ⟨rfl, rfl⟩
  | cons e es ih =>
    intro s
    have hs := step_indep s e
    constructor
    · simp only [processEvents]
      rw [hs.1]
      exact (ih _).1
    · simp only [processEvents]
      rw [hs.1, hs.2, (ih _).2]

/-- C8: with no aggregator injected, a whole run makes no `updateErrorState`
or `clearErrorState` call, and is otherwise identical to the same run with an
aggregator present: same emitted events, same final reactive state, and same
rendered output. -/
theorem c8_no_aggregator (p : Props) (es : List Event) (hasHelp : Bool) :
    (run false p es).aggCalls = [] ∧
      (run false p es).emits = (run true p es).emits ∧
      (run false p es).state = (run true p es).state ∧
      renderOf p hasHelp (run false p es).state = renderOf p hasHelp (run true p es).state := by
  have hind := processEvents_indep es (initState p)
  refine ⟨?_, ?_, ?_, ?_⟩
  · simp [run, mountCalls, errorMessageWatcher, unmountCalls, processEvents_no_agg]
  · simpa [run] using hind.2
  · simpa [run] using hind.1
  · simp only [run]
    exact congrArg (renderOf p hasHelp) hind.1

end AllyWrapper
